import Mathlib

/-!
Verification development for the PegKeeper IDL-runner page
(`src/app/idl-runner/page.tsx`).

The file shallowly embeds the dynamic instruction-invocation pipeline of the
page: the type-coercion helpers (`toCamel`, `isBNType`, `parseArg`), the
argument assembly (`argsOrdered`), the account resolution loop
(`buildAccounts`), and the stateful `runInstruction` handler together with the
pieces of React state it reads and writes (modelled as `SessionState`).

External libraries used by the page are modelled by executable Lean functions
faithful to their documented behaviour:
  * `anchor.BN(raw)` (bn.js 5.x): strips all whitespace, accepts an optional
    leading minus followed by base-10 digits (an empty digit run is 0), and
    throws on any other character (`bnParse`).
  * `Number(raw)` (JS host conversion): trims whitespace, empty means 0,
    decimal forms are parsed, anything else is NaN (`jsNumber`); exponent,
    hex, octal, binary and Infinity literal forms are not modelled, no claim
    depends on them, and NaN is represented as `none`.
  * `new PublicKey(v)` (@solana/web3.js): base58-decodes the string and
    requires exactly 32 bytes (`validPubkeyStr`).
-/

deriving instance DecidableEq for Except

namespace IdlRunner

/-! ### Character and substring helpers -/

/-- ASCII lowercasing of a string (the `/i` regex flag and
`String.prototype.toLowerCase` as applied to the ASCII type tags; defined
through the character list so that it evaluates inside the kernel). -/
def toLowerStr (s : String) : String :=
  String.mk (s.toList.map Char.toLower)

/-- JS whitespace (the common ASCII part of the `\s` class used by
`String.replace(/\s+/g, ...)` in bn.js; exotic unicode spaces are not
modelled, no claim depends on them). -/
def jsWs (c : Char) : Bool :=
  c == ' ' || c == '\t' || c == '\n' || c == '\r' || c == '\x0b' || c == '\x0c'

/-- Helper `startsWithL hay pat` is true when `pat` is an initial segment of `hay`. -/
def startsWithL : List Char → List Char → Bool
  | _, [] => true
  | [], _ :: _ => false
  | c :: cs, p :: ps => c == p && startsWithL cs ps

/-- Helper `subOccurs pat hay`: the pattern occurs contiguously somewhere in `hay`
(the unanchored regex test `/pat/.test(hay)`). -/
def subOccurs (pat : List Char) : List Char → Bool
  | [] => startsWithL [] pat
  | c :: cs => startsWithL (c :: cs) pat || subOccurs pat cs

/-- String-level unanchored substring test. -/
def strHasSub (hay pat : String) : Bool :=
  subOccurs pat.toList hay.toList

/-! ### Type tags and coercion (`isBNType`, `parseArg`, page.tsx lines 21-30) -/

/-- The six wide-integer fragments of the regex
`/(u64|i64|u128|i128|u256|i256)/i` on page.tsx line 21. -/
def bnPats : List String := ["u64", "i64", "u128", "i128", "u256", "i256"]

/-- Predicate `isBNType (t?: string)` from page.tsx line 21:
`!!t && /(u64|i64|u128|i128|u256|i256)/i.test(t)`.  The `/i` flag is modelled
by lowercasing the subject (the alternatives are already lowercase). -/
def isBNType (t : Option String) : Bool :=
  match t with
  | none => false
  | some s => (s != "") && bnPats.any (fun p => strHasSub (toLowerStr s) p)

/-- The exact-match narrow numeric alternatives of the regex
`/^(u8|u16|u32|i8|i16|i32|f32|f64)$/i` on page.tsx line 27. -/
def narrowTags : List String := ["u8", "u16", "u32", "i8", "i16", "i32", "f32", "f64"]

/-- The anchored case-insensitive regex test of page.tsx line 27. -/
def isNarrowTag (t : String) : Bool :=
  narrowTags.contains (toLowerStr t)

/-- Base-10 value of a digit list (bn.js accumulates exactly this way,
with arbitrary precision). -/
def digitsToNat (l : List Char) : Nat :=
  l.foldl (fun acc c => acc * 10 + (c.toNat - 48)) 0

/-- The digit run bn.js parses: everything after an optional leading minus. -/
def decDigitsPart (l : List Char) : List Char :=
  if l.headD ' ' == '-' then l.drop 1 else l

/-- bn.js accepts a (whitespace-stripped) string iff the part after the
optional leading minus consists of base-10 digits only (possibly none). -/
def bnShape (l : List Char) : Bool :=
  (decDigitsPart l).all Char.isDigit

/-- The integer bn.js builds from an accepted character list. -/
def bnDigitsVal (l : List Char) : Int :=
  if l.headD ' ' == '-' then -(Int.ofNat (digitsToNat (decDigitsPart l)))
  else Int.ofNat (digitsToNat (decDigitsPart l))

/-- bn.js parse of a whitespace-stripped character list: the accepted shape
yields its value, anything else throws `Invalid character`. -/
def bnParseChars (l : List Char) : Option Int :=
  if bnShape l then some (bnDigitsVal l) else none

/-- Step `number.toString().replace(/\s+/g, '')` from the bn.js constructor:
every whitespace character is removed, wherever it occurs. -/
def stripWs (s : String) : List Char :=
  s.toList.filter (fun c => !jsWs c)

/-- Model of `new anchor.BN(raw)` (base 10): `none` means the constructor
throws. -/
def bnParse (raw : String) : Option Int :=
  bnParseChars (stripWs raw)

/-- Spec-side notion (spec section 4.1): a valid base-10 integer string is an
optional leading minus followed by at least one digit, and nothing else.
Stated from the spec's words, to be compared with the source's `bnParse`. -/
def specValidDecString (s : String) : Bool :=
  if s.toList.headD ' ' == '-' then
    !(s.toList.drop 1).isEmpty && (s.toList.drop 1).all Char.isDigit
  else
    !s.toList.isEmpty && s.toList.all Char.isDigit

/-- Decimal value of a base-10 integer string (spec side). -/
def specDecValue (s : String) : Int :=
  if s.toList.headD ' ' == '-' then -(Int.ofNat (digitsToNat (s.toList.drop 1)))
  else Int.ofNat (digitsToNat s.toList)

/-- Leading/trailing trim used by the JS `Number` conversion. -/
def jsTrim (l : List Char) : List Char :=
  ((l.dropWhile jsWs).reverse.dropWhile jsWs).reverse

/-- Fractional decimal value `ip.fp`. -/
def decFracVal (ip fp : List Char) : Rat :=
  (digitsToNat ip : Rat) + (digitsToNat fp : Rat) / ((10 : Rat) ^ fp.length)

/-- Unsigned part of the JS `Number` decimal grammar: `digits`,
`digits.digits`, `digits.` or `.digits`. -/
def jsNumCore (l : List Char) : Option Rat :=
  let ip := l.takeWhile Char.isDigit
  let rest := l.dropWhile Char.isDigit
  if rest.isEmpty then
    if ip.isEmpty then none else some ((digitsToNat ip : Nat) : Rat)
  else if rest.headD ' ' == '.' then
    if (rest.drop 1).all Char.isDigit && !(ip.isEmpty && (rest.drop 1).isEmpty) then
      some (decFracVal ip (rest.drop 1))
    else none
  else none

/-- Model of the host conversion `Number(raw)`; `none` is the NaN value
(`Number` never throws). -/
def jsNumber (raw : String) : Option Rat :=
  let l := jsTrim raw.toList
  if l.isEmpty then some 0
  else if l.headD ' ' == '-' then (jsNumCore (l.drop 1)).map (fun q => -q)
  else if l.headD ' ' == '+' then jsNumCore (l.drop 1)
  else jsNumCore l

/-- Errors thrown inside the `try` block of `runInstruction` (each constructor
corresponds to one `throw new Error(...)` site or to an error raised by a
library call); `signerFailure` carries an error of the rpc/signing collaborator. -/
inductive RunError where
  | instructionNotFound (name : String)
  | bnInvalidCharacter (raw : String)
  | missingAccountPubkey (name : String)
  | invalidPublicKeyInput (name : String)
  | methodNotFound (m : String)
  | signerFailure (msg : String)
  deriving DecidableEq, Repr

/-- The value `parseArg` hands to the anchor builder. -/
inductive JsValue where
  | bool (b : Bool)
  | bn (n : Int)
  | num (v : Option Rat)
  | str (s : String)
  deriving DecidableEq, Repr

/-- Coercion `parseArg(raw, idlType?)` from page.tsx lines 23-30.  The BN branch can
throw (bn.js `Invalid character`), hence the `Except`. -/
def parseArg (raw : String) (idlType : Option String) : Except RunError JsValue :=
  if idlType.map toLowerStr == some "bool" then
    Except.ok (JsValue.bool (raw == "true" || raw == "1"))
  else if isBNType idlType then
    match bnParse raw with
    | some n => Except.ok (JsValue.bn n)
    | none => Except.error (RunError.bnInvalidCharacter raw)
  else if isNarrowTag (idlType.getD "") then
    Except.ok (JsValue.num (jsNumber raw))
  else
    Except.ok (JsValue.str raw)

/-! ### IDL data model (shape of `/idl/pegkeeper.json`, spec section 6) -/

/-- The value of an argument's `type` field in the IDL document.  The page
resolves it by `a.type?.defined ?? a.type?.type ?? a.type` (line 142): an
object carrying a `defined` field, an object carrying a `type` field, a plain
string, or nothing at all. -/
inductive IdlArgType where
  | tag (s : String)
  | definedObj (s : String)
  | typeObj (s : String)
  | absent
  deriving DecidableEq, Repr

/-- The resolution `a.type?.defined ?? a.type?.type ?? a.type` of page.tsx
line 142, yielding the type tag string handed to `parseArg` (or nothing). -/
def resolveTag : IdlArgType → Option String
  | IdlArgType.tag s => some s
  | IdlArgType.definedObj s => some s
  | IdlArgType.typeObj s => some s
  | IdlArgType.absent => none

/-- One entry of `ix.args`. -/
structure ArgSpec where
  name : String
  ty : IdlArgType
  deriving DecidableEq, Repr

/-- One entry of `ix.accounts` (`isMut`/`isSigner` are display-only). -/
structure AcctSpec where
  name : String
  isMut : Bool
  isSigner : Bool
  deriving DecidableEq, Repr

/-- One entry of `idl.instructions`. -/
structure Instruction where
  name : String
  args : List ArgSpec
  accounts : List AcctSpec
  deriving DecidableEq, Repr

/-- The loaded IDL document (`IdlLike`): an instruction list plus the
mutable `address` field the page writes before constructing the program. -/
structure Idl where
  address : Option String
  instructions : List Instruction
  deriving DecidableEq, Repr

/-! ### Invocation assembler (page.tsx lines 138-168) -/

/-- Lookup in a JS object used as a string map (`argValues[a.name]`);
the object is modelled as an association list with unique keys. -/
def lookupStr (m : List (String × String)) (k : String) : Option String :=
  (m.find? (fun p => p.1 == k)).map (fun p => p.2)

/-- Assembly `argsOrdered` from page.tsx lines 141-143:
`(ix.args || []).map(a => parseArg(argValues[a.name] ?? '', ...))`.
A throw inside the mapped callback aborts the whole map, hence the
`Except` threading. -/
def argsOrdered : List ArgSpec → List (String × String) → Except RunError (List JsValue)
  | [], _ => Except.ok []
  | a :: rest, form =>
    match parseArg ((lookupStr form a.name).getD "") (resolveTag a.ty) with
    | Except.error e => Except.error e
    | Except.ok v =>
      match argsOrdered rest form with
      | Except.error e => Except.error e
      | Except.ok l => Except.ok (v :: l)

/-- The bitcoin-style base58 alphabet used by bs58. -/
def base58Alphabet : List Char :=
  "123456789ABCDEFGHJKLMNPQRSTUVWXYZabcdefghijkmnopqrstuvwxyz".toList

/-- Digit value of a base58 character, if it is one. -/
def b58Index (c : Char) : Option Nat :=
  base58Alphabet.findIdx? (fun x => x == c)

/-- Numeric value of a base58 string; `none` when some character is not in
the alphabet (bs58 throws `Non-base58 character`). -/
def b58DecodeNat (l : List Char) : Option Nat :=
  l.foldlM (fun acc c => (b58Index c).map (fun d => acc * 58 + d)) 0

/-- Number of bytes in the minimal big-endian encoding of `n`. -/
def natByteLen (n : Nat) : Nat :=
  if n = 0 then 0 else Nat.log2 n / 8 + 1

/-- Model of the `new PublicKey(v)` validation (@solana/web3.js): the base58
decoding must succeed and produce exactly 32 bytes (each leading `1`
contributes one zero byte). -/
def validPubkeyStr (s : String) : Bool :=
  match b58DecodeNat s.toList with
  | none => false
  | some v => ((s.toList.takeWhile (fun c => c == '1')).length + natByteLen v) == 32

/-- The accounts loop from page.tsx lines 146-151: for each declared account
in order, read the raw value, throw on a falsy value (absent key or empty
string), otherwise parse it as a public key (which itself can throw).  The
resulting object is modelled as an ordered list of bindings. -/
def buildAccounts : List AcctSpec → List (String × String) → Except RunError (List (String × String))
  | [], _ => Except.ok []
  | a :: rest, vals =>
    if (lookupStr vals a.name).getD "" = "" then
      Except.error (RunError.missingAccountPubkey a.name)
    else if validPubkeyStr ((lookupStr vals a.name).getD "") = false then
      Except.error (RunError.invalidPublicKeyInput a.name)
    else
      match buildAccounts rest vals with
      | Except.error e => Except.error e
      | Except.ok l => Except.ok ((a.name, (lookupStr vals a.name).getD "") :: l)

/-! ### Session state and the event handlers (page.tsx lines 45-314) -/

/-- First replace of the `toCamel` helper: `/_([a-z])/g` rewrites each
underscore-lowercase pair to the uppercased letter, scanning left to right. -/
def camelCore : List Char → List Char
  | [] => []
  | '_' :: c :: rest =>
    if 'a' ≤ c && c ≤ 'z' then c.toUpper :: camelCore rest
    else '_' :: camelCore (c :: rest)
  | c :: rest => c :: camelCore rest

/-- Second replace of the `toCamel` helper: `/^([A-Z])/` lowercases a leading capital. -/
def lowerFirst : List Char → List Char
  | [] => []
  | c :: rest => if 'A' ≤ c && c ≤ 'Z' then c.toLower :: rest else c :: rest

/-- Helper `toCamel` from page.tsx lines 18-19. -/
def toCamel (s : String) : String :=
  String.mk (lowerFirst (camelCore s.toList))

/-- The narrated log (page.tsx `log` state); one constructor per `setLog`
message shape that `runInstruction` and the instruction selector can emit. -/
inductive Cluster where
  | devnet | testnet | mainnet
  deriving DecidableEq, Repr

/-- Cluster picked for the explorer link on page.tsx lines 170-172:
`rpc.includes('devnet') ? 'devnet' : rpc.includes('testnet') ? ...`. -/
def clusterOf (rpc : String) : Cluster :=
  if strHasSub rpc "devnet" then Cluster.devnet
  else if strHasSub rpc "testnet" then Cluster.testnet
  else Cluster.mainnet

/-- Log lines relevant to `runInstruction` (page.tsx lines 109-174). -/
inductive LogMsg where
  | empty
  | idlNotLoaded
  | setProgramIdFirst
  | connectPhantomFirst
  | building
  | runFailed (e : RunError)
  | sent (sig : String) (cluster : Cluster)
  deriving DecidableEq, Repr

/-- The React state of the page read or written by the handlers the claims
are about.  `walletConnected` stands for `window.solana?.publicKey` being
present (the page checks the injected wallet object, not its own
`walletPk` string). -/
structure SessionState where
  rpc : String
  programId : String
  idl : Option Idl
  ixName : String
  argValues : List (String × String)
  acctValues : List (String × String)
  walletConnected : Bool
  busy : Bool
  log : LogMsg
  deriving DecidableEq, Repr

/-- The instruction selector's change handler (page.tsx line 238):
`onChange={(e) => setIxName(e.target.value)}` — the only state it touches
is `ixName`. -/
def selectInstruction (s : SessionState) (newName : String) : SessionState :=
  { s with ixName := newName }

/-- The `Run Instruction` button's `disabled` prop (page.tsx line 300). -/
def runButtonDisabled (s : SessionState) : Bool :=
  s.busy

/-- State in force while the transaction is being built: `setBusy(true)`,
`setLog('⏳ Building transaction…')`, then the in-place mutation
`(idl as any).address = programId` (page.tsx lines 113-134); `idl1` is the
mutated document. -/
def preBuild (s : SessionState) (idl1 : Idl) : SessionState :=
  { s with busy := true, log := LogMsg.building, idl := some idl1 }

/-- The anchor `program.methods` table: one entry per IDL instruction, keyed
by the camel-cased instruction name (anchor 0.28/0.29 builds it this way
from the same document). -/
def methodTable (idl1 : Idl) : List String :=
  idl1.instructions.map (fun i => toCamel i.name)

/-- Body of the `try` block of `runInstruction` (page.tsx lines 116-172),
already in the state where `idl.address` has been set: find the instruction,
assemble the ordered args, resolve the accounts, look the method up, then
hand off to the rpc/signing collaborator whose outcome is the parameter
`rpcResult`.  Produces the data of the success log line, or the first error
thrown. -/
def buildOutcome (idl1 : Idl) (s : SessionState) (rpcResult : Except RunError String) :
    Except RunError (Cluster × String) :=
  match idl1.instructions.find? (fun i => i.name == s.ixName) with
  | none => Except.error (RunError.instructionNotFound s.ixName)
  | some ix =>
    match argsOrdered ix.args s.argValues with
    | Except.error e => Except.error e
    | Except.ok _ =>
      match buildAccounts ix.accounts s.acctValues with
      | Except.error e => Except.error e
      | Except.ok _ =>
        if (methodTable idl1).contains (toCamel s.ixName) then
          match rpcResult with
          | Except.error e => Except.error e
          | Except.ok sig => Except.ok (clusterOf s.rpc, sig)
        else Except.error (RunError.methodNotFound (toCamel s.ixName))

/-- The `catch`/`finally` tail of `runInstruction`: the success or failure
log line is written and `setBusy(false)` runs on both paths
(page.tsx lines 170-177). -/
def finishState (s2 : SessionState) (out : Except RunError (Cluster × String)) : SessionState :=
  match out with
  | Except.ok p => { s2 with log := LogMsg.sent p.2 p.1, busy := false }
  | Except.error e => { s2 with log := LogMsg.runFailed e, busy := false }

/-- Handler `runInstruction` (page.tsx lines 108-178) as a state transformer.  The
three guard clauses return early with only a log line; otherwise the busy
flag is raised, the loaded IDL's `address` field is overwritten with the
program id, the transaction is built and the outcome narrated. -/
def runInstruction (s : SessionState) (rpcResult : Except RunError String) : SessionState :=
  match s.idl with
  | none => { s with log := LogMsg.idlNotLoaded }
  | some idl0 =>
    if s.programId == "" then { s with log := LogMsg.setProgramIdFirst }
    else if s.walletConnected == false then { s with log := LogMsg.connectPhantomFirst }
    else
      finishState (preBuild s { idl0 with address := some s.programId })
        (buildOutcome { idl0 with address := some s.programId } s rpcResult)

/-- Argument names declared by the instruction named `n` in `idl`. -/
def instructionArgNames (idl : Idl) (n : String) : List String :=
  ((idl.instructions.find? (fun i => i.name == n)).map
    (fun i => i.args.map ArgSpec.name)).getD []

/-! ### Concrete instances used by witnesses and counterexamples -/

/-- A deposit-like argument list: one wide integer and one opaque argument. -/
def exArgs : List ArgSpec :=
  [{ name := "amount", ty := IdlArgType.tag "u64" },
   { name := "memo", ty := IdlArgType.tag "string" }]

/-- A fully filled form for `exArgs`. -/
def exForm : List (String × String) :=
  [("amount", "1000000"), ("memo", "hi")]

/-- An IDL with two instructions whose argument names differ. -/
def exIdl2 : Idl :=
  { address := none,
    instructions :=
      [{ name := "one", args := [{ name := "oldArg", ty := IdlArgType.tag "u64" }], accounts := [] },
       { name := "two", args := [{ name := "newArg", ty := IdlArgType.tag "u64" }], accounts := [] }] }

/-- Session with instruction `one` selected and its argument filled in. -/
def exState2 : SessionState :=
  { rpc := "https://api.devnet.solana.com", programId := "Prog1", idl := some exIdl2,
    ixName := "one", argValues := [("oldArg", "5")], acctValues := [],
    walletConnected := true, busy := false, log := LogMsg.empty }

/-- An IDL with a single no-argument instruction `init`. -/
def exIdl8 : Idl :=
  { address := none,
    instructions := [{ name := "init", args := [], accounts := [] }] }

/-- Session whose selected instruction name is absent from the loaded IDL,
with all three submission guards satisfied. -/
def exState8 : SessionState :=
  { rpc := "https://api.devnet.solana.com", programId := "Prog1", idl := some exIdl8,
    ixName := "missing", argValues := [], acctValues := [],
    walletConnected := true, busy := false, log := LogMsg.empty }

/-- Session ready to submit the parameterless instruction `init`. -/
def exState9 : SessionState :=
  { rpc := "https://api.devnet.solana.com", programId := "Prog1", idl := some exIdl8,
    ixName := "init", argValues := [], acctValues := [],
    walletConnected := true, busy := false, log := LogMsg.empty }

/-! ### Helper lemmas about the coercion branches -/

theorem bnType_toLower_ne_bool (t : String) (h : isBNType (some t) = true) :
    toLowerStr t ≠ "bool" := by
  intro hb
  have h2 : bnPats.any (fun p => strHasSub (toLowerStr t) p) = true := by
    simp only [isBNType, Bool.and_eq_true] at h
    exact h.2
  rw [hb] at h2
  exact absurd h2 (by decide)

theorem parseArg_bool_branch (raw t : String) (h : toLowerStr t = "bool") :
    parseArg raw (some t) = Except.ok (JsValue.bool (raw == "true" || raw == "1")) := by
  unfold parseArg
  rw [if_pos]
  simp [h]

theorem parseArg_bn_branch (raw t : String) (hbn : isBNType (some t) = true) :
    parseArg raw (some t) =
      match bnParse raw with
      | some n => Except.ok (JsValue.bn n)
      | none => Except.error (RunError.bnInvalidCharacter raw) := by
  unfold parseArg
  rw [if_neg, if_pos hbn]
  simp [bnType_toLower_ne_bool t hbn]

theorem narrowTag_cases (t : String) (h : isNarrowTag t = true) :
    toLowerStr t = "u8" ∨ toLowerStr t = "u16" ∨ toLowerStr t = "u32" ∨ toLowerStr t = "i8" ∨
    toLowerStr t = "i16" ∨ toLowerStr t = "i32" ∨ toLowerStr t = "f32" ∨ toLowerStr t = "f64" := by
  simpa [isNarrowTag, narrowTags, List.contains_eq_any_beq] using h

theorem narrowTag_not_bn (t : String) (h : isNarrowTag t = true) :
    toLowerStr t ≠ "bool" ∧ isBNType (some t) = false := by
  have hmem : toLowerStr t ∈ narrowTags := by
    rcases narrowTag_cases t h with h1|h1|h1|h1|h1|h1|h1|h1 <;> rw [h1] <;> decide
  have hgen : ∀ s ∈ narrowTags, s ≠ "bool" ∧ bnPats.any (fun p => strHasSub s p) = false := by
    decide
  obtain ⟨hs1, hs2⟩ := hgen _ hmem
  exact ⟨hs1, by simp only [isBNType, hs2, Bool.and_false]⟩

theorem jsWs_of_isDigit (c : Char) (h : c.isDigit = true) : jsWs c = false := by
  cases hw : jsWs c
  · rfl
  · exfalso
    simp only [jsWs, Bool.or_eq_true, beq_iff_eq] at hw
    rcases hw with ((((rfl|rfl)|rfl)|rfl)|rfl)|rfl <;> exact absurd h (by decide)

theorem stripWs_eq_self (s : String) (h : ∀ c ∈ s.toList, jsWs c = false) :
    stripWs s = s.toList := by
  unfold stripWs
  rw [List.filter_eq_self]
  intro a ha
  simp [h a ha]

/-! ### Claims about the type coercion engine -/

/-- C5: coercion at boolean type returns true iff the raw string equals
`"true"` or `"1"`; every other string, the empty string included, coerces
to false. -/
theorem parseArg_bool_truthy (t raw : String) (h : toLowerStr t = "bool") :
    parseArg raw (some t) = Except.ok (JsValue.bool (raw == "true" || raw == "1")) ∧
    ((raw == "true" || raw == "1") = true ↔ (raw = "true" ∨ raw = "1")) := by
  refine ⟨parseArg_bool_branch raw t h, ?_⟩
  simp

/-- C5 witness: concrete boolean coercions through the theorem. -/
theorem parseArg_bool_truthy_example :
    parseArg "1" (some "bool") = Except.ok (JsValue.bool true) ∧
    parseArg "false" (some "bool") = Except.ok (JsValue.bool false) := by
  constructor
  · rw [(parseArg_bool_truthy "bool" "1" rfl).1]; decide
  · rw [(parseArg_bool_truthy "bool" "false" rfl).1]; decide

/-- C10: the wide-integer coercion branch is selected exactly by an
unanchored, case-insensitive substring test for u64/i64/u128/i128/u256/i256,
and whenever it is selected the raw value goes through the big-integer
parser instead of being passed through as an opaque string. -/
theorem isBNType_substring_match (t raw : String) :
    isBNType (some t) = bnPats.any (fun p => strHasSub (toLowerStr t) p) ∧
    (isBNType (some t) = true →
      parseArg raw (some t) =
        match bnParse raw with
        | some n => Except.ok (JsValue.bn n)
        | none => Except.error (RunError.bnInvalidCharacter raw)) := by
  constructor
  · by_cases ht : t = ""
    · subst ht; decide
    · simp only [isBNType]
      rw [show (t != "") = true by simpa using ht, Bool.true_and]
  · intro hbn
    exact parseArg_bn_branch raw t hbn

/-- C10 witness: a tag that merely contains `u64` is coerced as a big
integer. -/
theorem isBNType_substring_match_example :
    isBNType (some "myu64wrapper") = true ∧
    parseArg "7" (some "myu64wrapper") = Except.ok (JsValue.bn 7) := by
  have h := (isBNType_substring_match "myu64wrapper" "7").2 (by decide)
  exact ⟨by decide, by rw [h]; rfl⟩

/-- C7 counterexample: a non-numeric raw string at a narrow numeric type
coerces to the NaN value — the code returns a value instead of failing. -/
theorem parseArg_narrow_nan_value :
    parseArg "abc" (some "u8") = Except.ok (JsValue.num none) := by decide

/-- C7 amended: for narrow numeric types (8/16/32-bit integers and floats)
the coercion never fails: it returns the host numeric conversion of the raw
string, which is the NaN value for non-numeric input. -/
theorem parseArg_narrow_never_fails (raw t : String) (h : isNarrowTag t = true) :
    parseArg raw (some t) = Except.ok (JsValue.num (jsNumber raw)) := by
  obtain ⟨hb, hbn⟩ := narrowTag_not_bn t h
  unfold parseArg
  rw [if_neg, if_neg, if_pos]
  · simpa using h
  · simp [hbn]
  · simp [hb]

/-- C7 witness: the amended theorem at a concrete non-numeric input. -/
theorem parseArg_narrow_never_fails_example :
    parseArg "abc" (some "u8") = Except.ok (JsValue.num (jsNumber "abc")) ∧
    jsNumber "abc" = none :=
  ⟨parseArg_narrow_never_fails "abc" "u8" (by decide), by decide⟩

/-! ### Claims about wide-integer coercion -/

theorem specValid_parts (raw : String) (h : specValidDecString raw = true) :
    bnShape raw.toList = true ∧ (∀ c ∈ raw.toList, jsWs c = false) ∧
    bnDigitsVal raw.toList = specDecValue raw := by
  unfold specValidDecString at h
  by_cases hneg : (raw.toList.headD ' ' == '-') = true
  · rw [if_pos hneg] at h
    rw [Bool.and_eq_true] at h
    obtain ⟨hne, hdig⟩ := h
    have hdd : decDigitsPart raw.toList = raw.toList.drop 1 := by
      unfold decDigitsPart; rw [if_pos hneg]
    refine ⟨?_, ?_, ?_⟩
    · unfold bnShape
      rw [hdd]
      exact hdig
    · intro c hc
      cases hl : raw.toList with
      | nil => rw [hl] at hc; simp at hc
      | cons d ds =>
        rw [hl] at hc hneg hdig
        have hd : d = '-' := by simpa using hneg
        have hdig2 : ds.all Char.isDigit = true := by simpa using hdig
        rcases List.mem_cons.mp hc with rfl | hc2
        · rw [hd]; decide
        · exact jsWs_of_isDigit c (List.all_eq_true.mp hdig2 c hc2)
    · unfold bnDigitsVal specDecValue
      rw [if_pos hneg, if_pos hneg, hdd]
  · rw [if_neg hneg] at h
    rw [Bool.and_eq_true] at h
    obtain ⟨hne, hdig⟩ := h
    have hdd : decDigitsPart raw.toList = raw.toList := by
      unfold decDigitsPart; rw [if_neg hneg]
    refine ⟨?_, ?_, ?_⟩
    · unfold bnShape
      rw [hdd]
      exact hdig
    · intro c hc
      exact jsWs_of_isDigit c (List.all_eq_true.mp hdig c hc)
    · unfold bnDigitsVal specDecValue
      rw [if_neg hneg, if_neg hneg, hdd]

theorem bnParse_of_specValid (raw : String) (h : specValidDecString raw = true) :
    bnParse raw = some (specDecValue raw) := by
  obtain ⟨hsh, hws, hval⟩ := specValid_parts raw h
  unfold bnParse bnParseChars
  rw [stripWs_eq_self raw hws, if_pos hsh, hval]

/-- C6 counterexample: the empty string is not a valid base-10 integer
string, yet wide-integer coercion succeeds on it and yields 0 rather than
failing with an invalid-literal error. -/
theorem parseArg_empty_bn_zero :
    specValidDecString "" = false ∧ parseArg "" (some "u64") = Except.ok (JsValue.bn 0) := by
  exact ⟨by decide, by decide⟩

/-- C6 amended: wide-integer coercion first strips every whitespace
character, then accepts an optional leading minus followed by digits only:
a valid base-10 integer string yields exactly its decimal value, a stripped
form with a non-digit is rejected with the invalid-character error, and the
only spec-invalid strings it accepts are those whose acceptance comes from
whitespace stripping or whose digit run is empty — the latter yield 0. -/
theorem parseArg_wide_int_exact (raw t : String) (hbn : isBNType (some t) = true) :
    (specValidDecString raw = true →
      parseArg raw (some t) = Except.ok (JsValue.bn (specDecValue raw))) ∧
    (parseArg raw (some t) = Except.error (RunError.bnInvalidCharacter raw) ↔
      bnShape (stripWs raw) = false) ∧
    (∀ n : Int, specValidDecString raw = false → bnParse raw = some n →
      (∃ c ∈ raw.toList, jsWs c = true) ∨ n = 0) := by
  refine ⟨?_, ?_, ?_⟩
  · intro hval
    rw [parseArg_bn_branch raw t hbn, bnParse_of_specValid raw hval]
  · rw [parseArg_bn_branch raw t hbn]
    unfold bnParse bnParseChars
    by_cases hs : bnShape (stripWs raw) = true
    · rw [if_pos hs]; simp [hs]
    · rw [if_neg hs]
      simp only [Bool.not_eq_true] at hs
      simp [hs]
  · intro n hinval hsome
    by_cases hws : ∀ c ∈ raw.toList, jsWs c = false
    · right
      unfold bnParse bnParseChars at hsome
      rw [stripWs_eq_self raw hws] at hsome
      by_cases hsh : bnShape raw.toList = true
      · rw [if_pos hsh] at hsome
        have hn : bnDigitsVal raw.toList = n := by simpa using hsome
        unfold specValidDecString at hinval
        unfold bnShape at hsh
        by_cases hneg : (raw.toList.headD ' ' == '-') = true
        · rw [if_pos hneg] at hinval
          have hdd : decDigitsPart raw.toList = raw.toList.drop 1 := by
            unfold decDigitsPart; rw [if_pos hneg]
          rw [hdd] at hsh
          have hnil : raw.toList.drop 1 = [] := by
            have h0 := hinval
            rw [Bool.and_eq_false_eq_eq_false_or_eq_false] at h0
            rcases h0 with h1 | h1
            · simpa using h1
            · rw [hsh] at h1; cases h1
          rw [← hn]
          unfold bnDigitsVal
          rw [if_pos hneg, hdd, hnil]
          decide
        · rw [if_neg hneg] at hinval
          have hdd : decDigitsPart raw.toList = raw.toList := by
            unfold decDigitsPart; rw [if_neg hneg]
          rw [hdd] at hsh
          have hnil : raw.toList = [] := by
            have h0 := hinval
            rw [Bool.and_eq_false_eq_eq_false_or_eq_false] at h0
            rcases h0 with h1 | h1
            · simpa using h1
            · rw [hsh] at h1; cases h1
          rw [← hn]
          unfold bnDigitsVal
          rw [if_neg hneg, hdd, hnil]
          decide
      · rw [if_neg hsh] at hsome; cases hsome
    · left
      push_neg at hws
      obtain ⟨c, hc, hcws⟩ := hws
      exact ⟨c, hc, by simpa using hcws⟩

/-- C6 witness: the amended theorem at a 15-digit decimal literal — the
value is exact, with no rounding. -/
theorem parseArg_wide_int_exact_example :
    parseArg "123456789012345" (some "u64") =
      Except.ok (JsValue.bn (specDecValue "123456789012345")) ∧
    specDecValue "123456789012345" = 123456789012345 :=
  ⟨(parseArg_wide_int_exact "123456789012345" "u64" (by decide)).1 (by decide), by decide⟩

/-! ### Claims about the invocation assembler -/

/-- C4 counterexample: an instruction declaring one argument, assembled from
an empty form, succeeds with the empty string coerced in place of the missing
value — it does not fail with a missing-argument error. -/
theorem argsOrdered_missing_arg_succeeds :
    argsOrdered [{ name := "x", ty := IdlArgType.tag "pubkey" }] [] =
      Except.ok [JsValue.str ""] := by decide

/-- C4 amended: a declared argument with no raw value in the form does not
make assembly fail; the empty string is substituted as its raw value, and in
a successful assembly that argument's position holds the coercion of `""`. -/
theorem argsOrdered_missing_defaults_empty :
    ∀ (args : List ArgSpec) (f : List (String × String)) (i : Nat) (a : ArgSpec),
      args[i]? = some a → lookupStr f a.name = none →
      ∀ l, argsOrdered args f = Except.ok l →
        ∃ v, parseArg "" (resolveTag a.ty) = Except.ok v ∧ l[i]? = some v := by
  intro args
  induction args with
  | nil => intro f i a ha; simp at ha
  | cons b rest ih =>
    intro f i a ha hmiss l hok
    simp only [argsOrdered] at hok
    cases hp : parseArg ((lookupStr f b.name).getD "") (resolveTag b.ty) with
    | error e => simp only [hp] at hok; cases hok
    | ok v =>
      simp only [hp] at hok
      cases hr : argsOrdered rest f with
      | error e => simp only [hr] at hok; cases hok
      | ok l0 =>
        simp only [hr] at hok
        have hl : v :: l0 = l := by simpa using hok
        subst hl
        cases i with
        | zero =>
          have hab : b = a := by simpa using ha
          subst hab
          rw [hmiss] at hp
          exact ⟨v, hp, by simp⟩
        | succ j =>
          have ha2 : rest[j]? = some a := by simpa using ha
          obtain ⟨v2, h1, h2⟩ := ih f j a ha2 hmiss l0 hr
          exact ⟨v2, h1, by simpa using h2⟩

/-- C4 witness: the amended theorem applied to the one-argument instruction
with an empty form. -/
theorem argsOrdered_missing_defaults_empty_example :
    ∃ v, parseArg "" (resolveTag (IdlArgType.tag "pubkey")) = Except.ok v ∧
      [JsValue.str ""][0]? = some v :=
  argsOrdered_missing_defaults_empty
    [{ name := "x", ty := IdlArgType.tag "pubkey" }] [] 0
    { name := "x", ty := IdlArgType.tag "pubkey" } (by decide) (by decide)
    [JsValue.str ""] (by decide)

/-- Helper: a successful account resolution implies every declared account
had a non-falsy raw value (the loop throws at the first falsy one). -/
theorem buildAccounts_ok_all_present :
    ∀ (accts : List AcctSpec) (vals : List (String × String)) (l : List (String × String)),
      buildAccounts accts vals = Except.ok l →
      ∀ a ∈ accts, (lookupStr vals a.name).getD "" ≠ "" := by
  intro accts
  induction accts with
  | nil => intro vals l hok a ha; simp at ha
  | cons b rest ih =>
    intro vals l hok a ha
    simp only [buildAccounts] at hok
    by_cases hb : (lookupStr vals b.name).getD "" = ""
    · rw [if_pos hb] at hok; simp at hok
    · rw [if_neg hb] at hok
      by_cases hv : validPubkeyStr ((lookupStr vals b.name).getD "") = false
      · rw [if_pos hv] at hok; simp at hok
      · rw [if_neg hv] at hok
        rcases List.mem_cons.mp ha with rfl | ha2
        · exact hb
        · cases hr : buildAccounts rest vals with
          | error e => simp only [hr] at hok; cases hok
          | ok l0 => exact ih vals l0 hr a ha2

/-- C3 counterexample: an instruction declaring an account named exactly
`systemProgram`, with no supplied value, makes the account loop throw the
missing-account error — there is no auto-fill of the well-known address. -/
theorem buildAccounts_system_program_not_autofilled :
    buildAccounts [{ name := "systemProgram", isMut := false, isSigner := false }] [] =
      Except.error (RunError.missingAccountPubkey "systemProgram") := by decide

/-- C3 amended: a declared account with no supplied (or empty) raw value —
one named `systemProgram` included — always makes assembly fail rather than
being auto-filled; when the value-less `systemProgram` account is the first
declared account the error names it. -/
theorem buildAccounts_missing_fails (accts : List AcctSpec) (vals : List (String × String))
    (h : ∃ a ∈ accts, (lookupStr vals a.name).getD "" = "") :
    (∀ l, buildAccounts accts vals ≠ Except.ok l) ∧
    (∀ m sg rest, accts = { name := "systemProgram", isMut := m, isSigner := sg } :: rest →
      (lookupStr vals "systemProgram").getD "" = "" →
      buildAccounts accts vals = Except.error (RunError.missingAccountPubkey "systemProgram")) := by
  constructor
  · intro l hok
    obtain ⟨a, ha, hmiss⟩ := h
    exact buildAccounts_ok_all_present accts vals l hok a ha hmiss
  · intro m sg rest hacc hmiss
    subst hacc
    simp only [buildAccounts]
    rw [if_pos hmiss]

/-- C3 witness: the amended theorem at the singleton `systemProgram`
instruction with an empty form. -/
theorem buildAccounts_missing_fails_example :
    (∀ l, buildAccounts [{ name := "systemProgram", isMut := false, isSigner := false }] [] ≠
      Except.ok l) ∧
    buildAccounts [{ name := "systemProgram", isMut := false, isSigner := false }] [] =
      Except.error (RunError.missingAccountPubkey "systemProgram") := by
  have h := buildAccounts_missing_fails
    [{ name := "systemProgram", isMut := false, isSigner := false }] []
    ⟨{ name := "systemProgram", isMut := false, isSigner := false }, by simp, by decide⟩
  exact ⟨h.1, h.2 false false [] rfl (by decide)⟩

/-- C1: when every declared argument has a supplied raw value whose coercion
succeeds, assembly produces an ordered list exactly as long as the
declaration list, whose i-th element is the coercion of the value supplied
for the i-th declared argument — declaration order preserved exactly. -/
theorem argsOrdered_length_order (args : List ArgSpec) (f : List (String × String))
    (h : ∀ a ∈ args, ∃ raw v, lookupStr f a.name = some raw ∧
      parseArg raw (resolveTag a.ty) = Except.ok v) :
    ∃ l, argsOrdered args f = Except.ok l ∧ l.length = args.length ∧
      ∀ i, i < args.length → ∃ a raw v, args[i]? = some a ∧
        lookupStr f a.name = some raw ∧ parseArg raw (resolveTag a.ty) = Except.ok v ∧
        l[i]? = some v := by
  revert h
  induction args with
  | nil =>
    intro h
    exact ⟨[], rfl, rfl, fun i hi => absurd hi (by simp)⟩
  | cons b rest ih =>
    intro h
    obtain ⟨raw, v, hlook, hparse⟩ := h b (by simp)
    obtain ⟨l, hl, hlen, hidx⟩ := ih (fun a ha => h a (by simp [ha]))
    refine ⟨v :: l, ?_, by simp [hlen], ?_⟩
    · simp only [argsOrdered, hlook, Option.getD_some, hparse, hl]
    · intro i hi
      cases i with
      | zero =>
        exact ⟨b, raw, v, by simp, hlook, hparse, by simp⟩
      | succ j =>
        obtain ⟨a, raw2, v2, hb, h2, h3, h4⟩ := hidx j (by simpa using hi)
        exact ⟨a, raw2, v2, by simpa using hb, h2, h3, by simpa using h4⟩

/-- C1 witness: the theorem applied to a two-argument instruction with a
fully supplied form. -/
theorem argsOrdered_length_order_example :
    ∃ l, argsOrdered exArgs exForm = Except.ok l ∧ l.length = exArgs.length := by
  have h := argsOrdered_length_order exArgs exForm ?valsOk
  · obtain ⟨l, hl, hlen, -⟩ := h
    exact ⟨l, hl, hlen⟩
  case valsOk =>
    intro a ha
    simp only [exArgs] at ha
    fin_cases ha
    · exact ⟨"1000000", JsValue.bn 1000000, by decide, by decide⟩
    · exact ⟨"hi", JsValue.str "hi", by decide, by decide⟩

/-! ### Claims about session state and the submit handler -/

/-- C2 counterexample: switching the selection from `one` to `two` keeps the
old key `oldArg` in the form state — the key set after the switch is not
the newly selected instruction's argument name set. -/
theorem selectInstruction_stale_keys :
    (selectInstruction exState2 "two").ixName = "two" ∧
    exState2.idl = some exIdl2 ∧
    (selectInstruction exState2 "two").argValues.map Prod.fst ≠
      instructionArgNames exIdl2 "two" := by
  exact ⟨rfl, rfl, by decide⟩

/-- C2 amended: an instruction switch updates only the selected name; the
argument and account maps (and the rest of the session) are untouched, so
keys from the previously selected instruction survive the switch. -/
theorem selectInstruction_only_changes_name (s : SessionState) (n : String) :
    (selectInstruction s n).ixName = n ∧
    (selectInstruction s n).argValues = s.argValues ∧
    (selectInstruction s n).acctValues = s.acctValues ∧
    (selectInstruction s n).idl = s.idl :=
  ⟨rfl, rfl, rfl, rfl⟩

/-- Helper: once the three guards pass, `runInstruction` is the finish step
applied to the pre-build state and the build outcome. -/
theorem runInstruction_eq_finish (s : SessionState) (idl0 : Idl) (r : Except RunError String)
    (hidl : s.idl = some idl0) (hpid : s.programId ≠ "") (hw : s.walletConnected = true) :
    runInstruction s r =
      finishState (preBuild s { idl0 with address := some s.programId })
        (buildOutcome { idl0 with address := some s.programId } s r) := by
  unfold runInstruction
  simp only [hidl]
  rw [if_neg (by simpa using hpid), if_neg (by simp [hw])]

/-- C8 counterexample: a failing submit (selected instruction absent from
the IDL) leaves the loaded IDL changed — its `address` field now carries
the program id — so the session is not exactly restored on failure. -/
theorem runInstruction_mutates_idl_address :
    (runInstruction exState8 (Except.ok "sig")).log =
      LogMsg.runFailed (RunError.instructionNotFound "missing") ∧
    (runInstruction exState8 (Except.ok "sig")).idl ≠ exState8.idl := by
  exact ⟨by decide, by decide⟩

/-- C8 amended: after any submit that reached the build stage — failing ones
included — the selected instruction name, the raw argument and account
values, the configuration and the wallet flag are unchanged and the busy
flag is cleared, but the loaded IDL is the prior document with its `address`
field overwritten by the program id; that mutation survives the failure. -/
theorem runInstruction_preserves_rest (s : SessionState) (idl0 : Idl)
    (r : Except RunError String) (e : RunError)
    (hidl : s.idl = some idl0) (hpid : s.programId ≠ "") (hw : s.walletConnected = true)
    (_hfail : (runInstruction s r).log = LogMsg.runFailed e) :
    (runInstruction s r).ixName = s.ixName ∧
    (runInstruction s r).argValues = s.argValues ∧
    (runInstruction s r).acctValues = s.acctValues ∧
    (runInstruction s r).rpc = s.rpc ∧
    (runInstruction s r).programId = s.programId ∧
    (runInstruction s r).walletConnected = s.walletConnected ∧
    (runInstruction s r).busy = false ∧
    (runInstruction s r).idl = some { idl0 with address := some s.programId } := by
  rw [runInstruction_eq_finish s idl0 r hidl hpid hw]
  cases buildOutcome { idl0 with address := some s.programId } s r with
  | ok p => exact ⟨rfl, rfl, rfl, rfl, rfl, rfl, rfl, rfl⟩
  | error e2 => exact ⟨rfl, rfl, rfl, rfl, rfl, rfl, rfl, rfl⟩

/-- C8 witness: the amended theorem at the concrete failing submit of the
counterexample state. -/
theorem runInstruction_preserves_rest_example :
    (runInstruction exState8 (Except.ok "sig")).ixName = exState8.ixName ∧
    (runInstruction exState8 (Except.ok "sig")).argValues = exState8.argValues ∧
    (runInstruction exState8 (Except.ok "sig")).idl =
      some { exIdl8 with address := some "Prog1" } := by
  have h := runInstruction_preserves_rest exState8 exIdl8 (Except.ok "sig")
    (RunError.instructionNotFound "missing") rfl (by decide) rfl (by decide)
  exact ⟨h.1, h.2.1, h.2.2.2.2.2.2.2⟩

/-- C9: for every submission that passes the guards, the submit button is
disabled exactly when the busy flag is set, the busy flag is already raised
in the state from which the transaction is built, and in the final state
the busy flag is cleared again — on success and on failure alike. -/
theorem runInstruction_busy_discipline (s : SessionState) (idl0 : Idl)
    (r : Except RunError String)
    (hidl : s.idl = some idl0) (hpid : s.programId ≠ "") (hw : s.walletConnected = true) :
    (∀ u : SessionState, runButtonDisabled u = u.busy) ∧
    (preBuild s { idl0 with address := some s.programId }).busy = true ∧
    runInstruction s r =
      finishState (preBuild s { idl0 with address := some s.programId })
        (buildOutcome { idl0 with address := some s.programId } s r) ∧
    (runInstruction s r).busy = false := by
  have hrun := runInstruction_eq_finish s idl0 r hidl hpid hw
  refine ⟨fun u => rfl, rfl, hrun, ?_⟩
  rw [hrun]
  cases buildOutcome { idl0 with address := some s.programId } s r with
  | ok p => rfl
  | error e => rfl

/-- C9 witness: the theorem at a concrete ready-to-submit state, for a
successful and for a failing collaborator outcome. -/
theorem runInstruction_busy_discipline_example :
    (preBuild exState9 { exIdl8 with address := some "Prog1" }).busy = true ∧
    (runInstruction exState9 (Except.ok "sig")).busy = false ∧
    (runInstruction exState9 (Except.error (RunError.signerFailure "user rejected"))).busy = false := by
  have h1 := runInstruction_busy_discipline exState9 exIdl8 (Except.ok "sig")
    rfl (by decide) rfl
  have h2 := runInstruction_busy_discipline exState9 exIdl8
    (Except.error (RunError.signerFailure "user rejected")) rfl (by decide) rfl
  exact ⟨h1.2.1, h1.2.2.2, h2.2.2.2⟩

end IdlRunner
